import Mathlib

/-!
Shallow embedding of `pkg/sparrow/targets/gitlab.go` (the gitlab target
manager of the sparrow repository): the reconciler state, the refresh /
registration / shutdown operations, and a small-step model of the
`Reconcile` select loop driven by an explicit schedule of events.

Time is modelled as `Int` (nanoseconds since an arbitrary epoch, as in Go's
monotonic comparisons: `a.After(b)` is `a > b`). Remote gitlab calls are
modelled by an environment `Env` supplying the outcome of each kind of call;
errors are `Option String` (`none` = nil error). The buffered channel
`done` (capacity 1) is modelled by its occupancy bit; a send on a full
channel blocks forever, which the model makes explicit.
-/

/-- A global target as in `checks.GlobalTarget`: a url and a lastSeen
timestamp. -/
structure GlobalTarget where
  url : String
  lastSeen : Int
  deriving DecidableEq, Repr

/-- The commit payload built by `updateRegistration`, as in `gitlab.File`
(the file name is chosen by the gitlab client and not part of this core). -/
structure File where
  branch : String
  authorEmail : String
  authorName : String
  contentUrl : String
  contentLastSeen : Int
  commitMessage : String
  deriving DecidableEq, Repr

/-- One remote call issued to the gitlab client, recorded for
observability (the spec's test double records calls). -/
inductive RemoteCall where
  | fetchFiles : RemoteCall
  | postFile (f : File) : RemoteCall
  | putFile (f : File) : RemoteCall
  deriving DecidableEq, Repr

/-- Environment for one run: current time and the outcome of each remote
call kind (`fetch` for `FetchFiles`, `postErr` for `PostFile`, `putErr`
for `PutFile`; `none` = success / nil error). -/
structure Env where
  now : Int
  fetch : Except String (List GlobalTarget)
  postErr : Option String
  putErr : Option String
  deriving Repr

/-- The mutable state of `gitlabTargetManager` (the mutex is not modelled:
operations are atomic steps; `doneFull` is the occupancy of the capacity-1
`done` channel). -/
structure GitlabTargetManager where
  targets : List GlobalTarget
  doneFull : Bool
  name : String
  checkInterval : Int
  unhealthyThreshold : Int
  registrationInterval : Int
  registered : Bool
  deriving DecidableEq, Repr

/-- `NewGitlabManager`: fresh manager with empty targets, empty done
channel and `registered = false`. -/
def NewGitlabManager (name : String) (checkInterval unhealthyThreshold regInterval : Int) :
    GitlabTargetManager :=
  { targets := []
    doneFull := false
    name := name
    checkInterval := checkInterval
    unhealthyThreshold := unhealthyThreshold
    registrationInterval := regInterval
    registered := false }

/-- `GetTargets`: returns the current targets (under a read lock in Go). -/
def GetTargets (t : GitlabTargetManager) : List GlobalTarget :=
  t.targets

/-- `Registered`: returns the registered flag (under a read lock in Go). -/
def Registered (t : GitlabTargetManager) : Bool :=
  t.registered

/-- Result of `Shutdown`: either it returns (new state, error), or the send
on the full `done` channel blocks forever (after `registered` was already
set to false under the lock). -/
inductive ShutdownRes where
  | ok (t : GitlabTargetManager) (err : Option String) : ShutdownRes
  | blockedSend (t : GitlabTargetManager) : ShutdownRes
  deriving DecidableEq, Repr

/-- `Shutdown`: takes the lock, sets `registered = false`, sends on the
`done` channel and returns `nil`. The send blocks forever when the
capacity-1 channel is already full. -/
def Shutdown (t : GitlabTargetManager) : ShutdownRes :=
  let t1 := { t with registered := false }
  if t1.doneFull then
    ShutdownRes.blockedSend t1
  else
    ShutdownRes.ok { t1 with doneFull := true } none

/-- The `gitlab.File` payload built at the top of `updateRegistration`
(before the branch-specific commit message is filled in). -/
def registrationFile (name : String) (now : Int) (commitMessage : String) : File :=
  { branch := "main"
    authorEmail := name ++ "@sparrow"
    authorName := name
    contentUrl := "https://" ++ name
    contentLastSeen := now
    commitMessage := commitMessage }

/-- `updateRegistration`: if already registered, `PutFile` with commit
message "Updated registration" (state unchanged either way); otherwise
`PostFile` with "Initial registration", and only on success set
`registered = true`. Returns the new state, the error, and the remote
calls issued. -/
def updateRegistration (env : Env) (t : GitlabTargetManager) :
    GitlabTargetManager × Option String × List RemoteCall :=
  if Registered t then
    let f := registrationFile t.name env.now "Updated registration"
    match env.putErr with
    | some e => (t, some e, [RemoteCall.putFile f])
    | none => (t, none, [RemoteCall.putFile f])
  else
    let f := registrationFile t.name env.now "Initial registration"
    match env.postErr with
    | some e => (t, some e, [RemoteCall.postFile f])
    | none => ({ t with registered := true }, none, [RemoteCall.postFile f])

/-- The healthy-target filter loop of `refreshTargets`: a target is skipped
when `time.Now().Add(-unhealthyThreshold).After(target.LastSeen)`, i.e.
when `now - threshold > lastSeen`; surviving targets are appended in input
order. -/
def filterHealthy (now threshold : Int) : List GlobalTarget → List GlobalTarget
  | [] => []
  | target :: rest =>
    if now - threshold > target.lastSeen then
      filterHealthy now threshold rest
    else
      target :: filterHealthy now threshold rest

/-- `refreshTargets`: fetches all files; on error returns it without
touching `targets`; on success replaces `targets` with the healthy subset
of the fetched list. -/
def refreshTargets (env : Env) (t : GitlabTargetManager) :
    GitlabTargetManager × Option String × List RemoteCall :=
  match env.fetch with
  | Except.error e => (t, some e, [RemoteCall.fetchFiles])
  | Except.ok targets =>
      ({ t with targets := filterHealthy env.now t.unhealthyThreshold targets },
        none, [RemoteCall.fetchFiles])

/-- One event source of the `Reconcile` select statement. A schedule is a
list of events; an event may be selected only while it is enabled
(`ctx.Done()` once the context is canceled — and it stays selectable
forever —, `t.done` while the channel holds a value, a timer channel while
the timer is armed; `time.NewTimer` fires once and fires again only after
a `Reset`). -/
inductive Event where
  | ctxDone : Event
  | doneCh : Event
  | checkTimer : Event
  | regTimer : Event
  deriving DecidableEq, Repr

/-- State of the `Reconcile` loop: the manager plus whether each one-shot
timer is armed (will fire again) and whether the outer context has been
canceled. -/
structure LoopState where
  t : GitlabTargetManager
  checkArmed : Bool
  regArmed : Bool
  ctxCanceled : Bool
  deriving DecidableEq, Repr

/-- Outcome of one iteration of the loop body: keep looping, return from
`Reconcile`, or block forever (a channel send that can never complete). -/
inductive Outcome where
  | running (ls : LoopState) : Outcome
  | returned (ls : LoopState) : Outcome
  | blocked (ls : LoopState) : Outcome
  deriving DecidableEq, Repr

/-- The loop state carried by an outcome. -/
def Outcome.state : Outcome → LoopState
  | Outcome.running ls => ls
  | Outcome.returned ls => ls
  | Outcome.blocked ls => ls

/-- Observables of one loop iteration: the outcome, the remote calls
issued, and how many times `Shutdown` was invoked by the loop itself. -/
structure StepRes where
  out : Outcome
  calls : List RemoteCall
  shutdowns : Nat
  deriving DecidableEq, Repr

/-- One iteration of the `Reconcile` select loop on a chosen event.
`none` means the event is not selectable in this state. Mirrors the Go
source: the `ctx.Done()` case calls `Shutdown` and returns only when
`Shutdown` returned a non-nil error; the `t.done` case returns; each timer
case runs its operation and, only on success, resets its own timer
(`continue` on error skips the `Reset`). -/
def ReconcileStep (env : Env) (ev : Event) (ls : LoopState) : Option StepRes :=
  match ev with
  | Event.ctxDone =>
    if ls.ctxCanceled then
      -- ctx.Err() is non-nil for a canceled context, so the branch body runs
      match Shutdown ls.t with
      | ShutdownRes.blockedSend t1 =>
          some ⟨Outcome.blocked { ls with t := t1 }, [], 1⟩
      | ShutdownRes.ok t1 err =>
        match err with
        | some _ => some ⟨Outcome.returned { ls with t := t1 }, [], 1⟩
        | none => some ⟨Outcome.running { ls with t := t1 }, [], 1⟩
    else none
  | Event.doneCh =>
    if ls.t.doneFull then
      some ⟨Outcome.returned { ls with t := { ls.t with doneFull := false } }, [], 0⟩
    else none
  | Event.checkTimer =>
    if ls.checkArmed then
      match refreshTargets env ls.t with
      | (t1, some _, cs) =>
          some ⟨Outcome.running { ls with t := t1, checkArmed := false }, cs, 0⟩
      | (t1, none, cs) =>
          some ⟨Outcome.running { ls with t := t1, checkArmed := true }, cs, 0⟩
    else none
  | Event.regTimer =>
    if ls.regArmed then
      match updateRegistration env ls.t with
      | (t1, some _, cs) =>
          some ⟨Outcome.running { ls with t := t1, regArmed := false }, cs, 0⟩
      | (t1, none, cs) =>
          some ⟨Outcome.running { ls with t := t1, regArmed := true }, cs, 0⟩
    else none

/-- Run the loop over a schedule of events, accumulating the remote calls
and `Shutdown` invocations; stops early when the loop returns or blocks;
`none` when the schedule selects an event that is not selectable. -/
def ReconcileRun (env : Env) : List Event → LoopState → Option (Outcome × List RemoteCall × Nat)
  | [], ls => some (Outcome.running ls, [], 0)
  | ev :: rest, ls =>
    match ReconcileStep env ev ls with
    | none => none
    | some r =>
      match r.out with
      | Outcome.running ls' =>
        match ReconcileRun env rest ls' with
        | none => none
        | some (o, cs, n) => some (o, r.calls ++ cs, r.shutdowns + n)
      | o => some (o, r.calls, r.shutdowns)

/-- The loop state as entered by `Reconcile`: both timers initially armed. -/
def initialLoopState (t : GitlabTargetManager) (canceled : Bool) : LoopState :=
  { t := t, checkArmed := true, regArmed := true, ctxCanceled := canceled }

/-- Fixture: a fresh, unregistered manager. -/
def tUnreg : GitlabTargetManager := NewGitlabManager "sparrow-1" 10 60 300

/-- Fixture: environment where every remote call succeeds and fetch
returns no targets. -/
def envAllOk : Env := { now := 100, fetch := Except.ok [], postErr := none, putErr := none }

/-- Fixture: environment where `FetchFiles` fails. -/
def envFetchFail : Env :=
  { now := 100, fetch := Except.error "fetch failed", postErr := none, putErr := none }

/-- Fixture: environment where `PostFile` fails. -/
def envPostFail : Env :=
  { now := 100, fetch := Except.ok [], postErr := some "post failed", putErr := none }

/-- Fixture: loop state at entry of `Reconcile`, context not canceled. -/
def lsStart : LoopState := initialLoopState tUnreg false

/-- Fixture: loop state after a failed refresh (check timer no longer armed). -/
def lsAfterFail : LoopState := { lsStart with checkArmed := false }

/-- Fixture: loop state at entry of `Reconcile` with the context canceled. -/
def lsCanceled : LoopState := initialLoopState tUnreg true

/-- Fixture: loop state in which the loop is blocked forever inside the
second `Shutdown` call's channel send. -/
def lsBlocked : LoopState := { lsCanceled with t := { tUnreg with doneFull := true } }

/-- The filter loop of `refreshTargets` is `List.filter` with the keep
condition `now - threshold ≤ lastSeen`. -/
theorem filterHealthy_eq_filter (now thr : Int) (ts : List GlobalTarget) :
    filterHealthy now thr ts = ts.filter (fun tg => decide (now - thr ≤ tg.lastSeen)) := by
  induction ts with
  | nil => rfl
  | cons hd tl ih =>
    by_cases h : now - thr > hd.lastSeen
    · rw [List.filter_cons_of_neg (by simpa using not_le.mpr h), ← ih]
      simp [filterHealthy, h]
    · rw [List.filter_cons_of_pos (by simpa using not_lt.mp h), ← ih]
      simp [filterHealthy, h]

/-- C2: if the remote fetch fails during a refresh, the refresh returns
that error and the manager state — in particular the cached peer list seen
by `GetTargets` — is exactly what it was before the call. -/
theorem refresh_failure_preserves_snapshot :
    ∀ (env : Env) (t : GitlabTargetManager) (e : String), env.fetch = Except.error e →
      (refreshTargets env t).1 = t ∧ (refreshTargets env t).2.1 = some e ∧
      GetTargets (refreshTargets env t).1 = GetTargets t := by
  intro env t e h
  simp [refreshTargets, h]

/-- Witness for C2 at a concrete failing environment. -/
theorem refresh_failure_preserves_snapshot_witness :
    envFetchFail.fetch = Except.error "fetch failed" ∧
    ((refreshTargets envFetchFail tUnreg).1 = tUnreg ∧
      (refreshTargets envFetchFail tUnreg).2.1 = some "fetch failed" ∧
      GetTargets (refreshTargets envFetchFail tUnreg).1 = GetTargets tUnreg) :=
  ⟨rfl, refresh_failure_preserves_snapshot envFetchFail tUnreg "fetch failed" rfl⟩

/-- Counterexample for C3: a record whose age equals the threshold exactly
(`lastSeen = now - unhealthyThreshold`, here `40 = 100 - 60`) satisfies the
claim's exclusion condition `lastSeen ≤ now - unhealthyThreshold`, yet the
refresh filter keeps it. -/
theorem staleness_boundary_counterexample :
    (GlobalTarget.mk "b" 40).lastSeen ≤ 100 - 60 ∧
    GlobalTarget.mk "b" 40 ∈ filterHealthy 100 60 [GlobalTarget.mk "b" 40] := by
  decide

/-- C3 (amended): a refresh excludes every record with
`lastSeen < now - unhealthyThreshold` and includes (unchanged) every
fetched record with `lastSeen ≥ now - unhealthyThreshold`; a record whose
age equals the threshold exactly is included. -/
theorem staleness_filter_amended :
    ∀ (now thr : Int) (ts : List GlobalTarget) (tg : GlobalTarget),
      (tg.lastSeen < now - thr → tg ∉ filterHealthy now thr ts) ∧
      (tg ∈ ts → now - thr ≤ tg.lastSeen → tg ∈ filterHealthy now thr ts) := by
  intro now thr ts tg
  constructor
  · intro hlt hmem
    rw [filterHealthy_eq_filter] at hmem
    have := (List.mem_filter.mp hmem).2
    simp at this
    omega
  · intro hmem hle
    rw [filterHealthy_eq_filter]
    exact List.mem_filter.mpr ⟨hmem, by simpa using hle⟩

/-- Witness for the amended C3 at concrete inputs: the spec's own example
scenario (threshold 60, a record 10 old kept) plus an over-age record
excluded. -/
theorem staleness_filter_amended_witness :
    ((GlobalTarget.mk "b" 39).lastSeen < 100 - 60 ∧
      GlobalTarget.mk "b" 39 ∉ filterHealthy 100 60 [GlobalTarget.mk "a" 90, GlobalTarget.mk "b" 39]) ∧
    (GlobalTarget.mk "a" 90 ∈ [GlobalTarget.mk "a" 90, GlobalTarget.mk "b" 39] ∧
      100 - 60 ≤ (GlobalTarget.mk "a" 90).lastSeen ∧
      GlobalTarget.mk "a" 90 ∈ filterHealthy 100 60 [GlobalTarget.mk "a" 90, GlobalTarget.mk "b" 39]) :=
  ⟨⟨by decide,
      (staleness_filter_amended 100 60 [GlobalTarget.mk "a" 90, GlobalTarget.mk "b" 39]
          (GlobalTarget.mk "b" 39)).1 (by decide)⟩,
    ⟨by decide, by decide,
      (staleness_filter_amended 100 60 [GlobalTarget.mk "a" 90, GlobalTarget.mk "b" 39]
          (GlobalTarget.mk "a" 90)).2 (by decide) (by decide)⟩⟩

/-- C4: a successful refresh replaces the peer list with exactly the pure
filter of the fetched sequence (records with `now - lastSeen > threshold`
discarded), in input order (the result is a sublist of the input), changes
nothing else, and reports no error. -/
theorem refresh_is_pure_filter :
    ∀ (env : Env) (t : GitlabTargetManager) (ts : List GlobalTarget), env.fetch = Except.ok ts →
      refreshTargets env t =
        ({ t with targets :=
            ts.filter (fun tg => decide (env.now - t.unhealthyThreshold ≤ tg.lastSeen)) },
          none, [RemoteCall.fetchFiles]) ∧
      List.Sublist (refreshTargets env t).1.targets ts := by
  intro env t ts h
  have h1 : refreshTargets env t =
      ({ t with targets :=
          ts.filter (fun tg => decide (env.now - t.unhealthyThreshold ≤ tg.lastSeen)) },
        none, [RemoteCall.fetchFiles]) := by
    simp [refreshTargets, h, filterHealthy_eq_filter]
  refine ⟨h1, ?_⟩
  rw [h1]
  exact List.filter_sublist ts

/-- Witness for C4 on the spec's example scenario: threshold 60, records
aged 10 and 120; the refresh keeps exactly the first. -/
theorem refresh_is_pure_filter_witness :
    ({ envAllOk with fetch := Except.ok [GlobalTarget.mk "a" 90, GlobalTarget.mk "b" (-20)] } : Env).fetch
        = Except.ok [GlobalTarget.mk "a" 90, GlobalTarget.mk "b" (-20)] ∧
    (refreshTargets { envAllOk with fetch := Except.ok [GlobalTarget.mk "a" 90, GlobalTarget.mk "b" (-20)] } tUnreg =
        ({ tUnreg with targets := [GlobalTarget.mk "a" 90] }, none, [RemoteCall.fetchFiles]) ∧
      List.Sublist (refreshTargets { envAllOk with fetch := Except.ok [GlobalTarget.mk "a" 90, GlobalTarget.mk "b" (-20)] } tUnreg).1.targets
        [GlobalTarget.mk "a" 90, GlobalTarget.mk "b" (-20)]) := by
  refine ⟨rfl, ?_⟩
  have h := refresh_is_pure_filter
    { envAllOk with fetch := Except.ok [GlobalTarget.mk "a" 90, GlobalTarget.mk "b" (-20)] }
    tUnreg [GlobalTarget.mk "a" 90, GlobalTarget.mk "b" (-20)] rfl
  exact ⟨by rw [h.1]; decide, h.2⟩

/-- Fixture: the step result of a successful initial registration firing
from `lsStart`. -/
def stepRegOk : StepRes :=
  ⟨Outcome.running { lsStart with t := { tUnreg with registered := true } },
    [RemoteCall.postFile (registrationFile "sparrow-1" 100 "Initial registration")], 0⟩

/-- Fixture: the step result of the cancellation branch running a first,
successful `Shutdown`. -/
def stepCancel : StepRes :=
  ⟨Outcome.running { lsCanceled with t := { tUnreg with doneFull := true } }, [], 1⟩

/-- Fixture: loop state whose `done` channel holds the shutdown signal. -/
def lsDone : LoopState := { lsStart with t := { tUnreg with doneFull := true } }

/-- C5: the `registered` flag is left unchanged by any failed registration
attempt, and across every step of the `Reconcile` loop it changes only
from `false` to `true` via a successful initial publish on the
registration trigger, or to `false` via the `Shutdown` performed on
context cancellation. -/
theorem registered_flag_transitions :
    (∀ (env : Env) (t : GitlabTargetManager) (e : String),
        (updateRegistration env t).2.1 = some e → (updateRegistration env t).1 = t) ∧
    (∀ (env : Env) (ev : Event) (ls : LoopState) (r : StepRes),
        ReconcileStep env ev ls = some r →
        r.out.state.t.registered ≠ ls.t.registered →
        (ls.t.registered = false ∧ r.out.state.t.registered = true ∧
          ev = Event.regTimer ∧ env.postErr = none) ∨
        (r.out.state.t.registered = false ∧ ev = Event.ctxDone)) := by
  constructor
  · intro env t e h
    unfold updateRegistration at h ⊢
    by_cases hr : Registered t
    · cases hp : env.putErr <;> simp [hr, hp] at h ⊢
    · cases hp : env.postErr <;> simp [hr, hp] at h ⊢
  · intro env ev ls r hstep hne
    cases ev with
    | ctxDone =>
      right
      unfold ReconcileStep Shutdown at hstep
      by_cases hc : ls.ctxCanceled
      · by_cases hd : ls.t.doneFull <;> simp [hc, hd] at hstep <;>
          simp [← hstep, Outcome.state]
      · simp [hc] at hstep
    | doneCh =>
      exfalso
      unfold ReconcileStep at hstep
      by_cases hd : ls.t.doneFull <;> simp [hd] at hstep
      exact hne (by simp [← hstep, Outcome.state])
    | checkTimer =>
      exfalso
      unfold ReconcileStep at hstep
      by_cases ha : ls.checkArmed
      · cases hf : env.fetch <;> simp [ha, refreshTargets, hf] at hstep <;>
          exact hne (by simp [← hstep, Outcome.state])
      · simp [ha] at hstep
    | regTimer =>
      unfold ReconcileStep at hstep
      by_cases ha : ls.regArmed
      · by_cases hr : Registered ls.t
        · exfalso
          cases hp : env.putErr <;>
            simp [ha, updateRegistration, hr, hp] at hstep <;>
            exact hne (by simp [← hstep, Outcome.state])
        · cases hp : env.postErr with
          | some e =>
            exfalso
            simp [ha, updateRegistration, hr, hp] at hstep
            exact hne (by simp [← hstep, Outcome.state])
          | none =>
            left
            simp [ha, updateRegistration, hr, hp] at hstep
            refine ⟨by simpa [Registered] using hr, ?_, rfl, rfl⟩
            simp [← hstep, Outcome.state]
      · simp [ha] at hstep

/-- Witness for C5: a failed initial registration leaves the state
unchanged, and a successful initial-registration step is the allowed
`false → true` transition. -/
theorem registered_flag_transitions_witness :
    ((updateRegistration envPostFail tUnreg).2.1 = some "post failed" ∧
      (updateRegistration envPostFail tUnreg).1 = tUnreg) ∧
    (ReconcileStep envAllOk Event.regTimer lsStart = some stepRegOk ∧
      stepRegOk.out.state.t.registered ≠ lsStart.t.registered ∧
      ((lsStart.t.registered = false ∧ stepRegOk.out.state.t.registered = true ∧
          Event.regTimer = Event.regTimer ∧ envAllOk.postErr = none) ∨
        (stepRegOk.out.state.t.registered = false ∧ Event.regTimer = Event.ctxDone))) :=
  ⟨⟨rfl, registered_flag_transitions.1 envPostFail tUnreg "post failed" rfl⟩,
    ⟨rfl, by decide,
      registered_flag_transitions.2 envAllOk Event.regTimer lsStart stepRegOk rfl (by decide)⟩⟩

/-- C6: from an unregistered state, with the remote client succeeding both
times, two registration calls perform exactly one `PostFile` marked
"Initial registration" followed by exactly one `PutFile` marked "Updated
registration", and `Registered` is true after each of the two calls. -/
theorem register_twice_post_then_put :
    ∀ (env : Env) (t : GitlabTargetManager),
      env.postErr = none → env.putErr = none → t.registered = false →
      (updateRegistration env t).2.2 =
          [RemoteCall.postFile (registrationFile t.name env.now "Initial registration")] ∧
      (updateRegistration env (updateRegistration env t).1).2.2 =
          [RemoteCall.putFile (registrationFile t.name env.now "Updated registration")] ∧
      Registered (updateRegistration env t).1 = true ∧
      Registered (updateRegistration env (updateRegistration env t).1).1 = true := by
  intro env t hpost hput hreg
  have h1 : updateRegistration env t =
      ({ t with registered := true }, none,
        [RemoteCall.postFile (registrationFile t.name env.now "Initial registration")]) := by
    simp [updateRegistration, Registered, hreg, hpost]
  have h2 : updateRegistration env { t with registered := true } =
      ({ t with registered := true }, none,
        [RemoteCall.putFile (registrationFile t.name env.now "Updated registration")]) := by
    simp [updateRegistration, Registered, hput]
  rw [h1]
  simp [h2, Registered]

/-- Witness for C6 at the concrete all-success environment and a fresh
manager. -/
theorem register_twice_post_then_put_witness :
    envAllOk.postErr = none ∧ envAllOk.putErr = none ∧ tUnreg.registered = false ∧
    ((updateRegistration envAllOk tUnreg).2.2 =
        [RemoteCall.postFile (registrationFile tUnreg.name envAllOk.now "Initial registration")] ∧
      (updateRegistration envAllOk (updateRegistration envAllOk tUnreg).1).2.2 =
        [RemoteCall.putFile (registrationFile tUnreg.name envAllOk.now "Updated registration")] ∧
      Registered (updateRegistration envAllOk tUnreg).1 = true ∧
      Registered (updateRegistration envAllOk (updateRegistration envAllOk tUnreg).1).1 = true) :=
  ⟨rfl, rfl, rfl, register_twice_post_then_put envAllOk tUnreg rfl rfl rfl⟩

/-- C7: once the `done` channel carries the shutdown signal, the iteration
that receives it returns from `Reconcile` immediately, issuing no remote
calls, and the rest of the schedule is never executed. -/
theorem shutdown_signal_stops_loop :
    ∀ (env : Env) (ls : LoopState) (rest : List Event),
      ls.t.doneFull = true →
      ReconcileRun env (Event.doneCh :: rest) ls =
        some (Outcome.returned { ls with t := { ls.t with doneFull := false } }, [], 0) := by
  intro env ls rest h
  simp [ReconcileRun, ReconcileStep, h]

/-- Witness for C7: a loop whose `done` channel is full returns at once
even though a timer event is still scheduled behind it. -/
theorem shutdown_signal_stops_loop_witness :
    lsDone.t.doneFull = true ∧
    ReconcileRun envAllOk [Event.doneCh, Event.checkTimer] lsDone =
      some (Outcome.returned { lsDone with t := { lsDone.t with doneFull := false } }, [], 0) :=
  ⟨rfl, shutdown_signal_stops_loop envAllOk lsDone [Event.checkTimer] rfl⟩

/-- C10: whenever `Shutdown` returns, its error is nil, and consequently
the cancellation branch of the `Reconcile` loop never takes its
failed-graceful-shutdown return path: the loop never returns from the
`ctx.Done()` case. -/
theorem shutdown_returns_nil :
    (∀ (t t1 : GitlabTargetManager) (e : Option String),
        Shutdown t = ShutdownRes.ok t1 e → e = none) ∧
    (∀ (env : Env) (ls : LoopState) (r : StepRes) (ls' : LoopState),
        ReconcileStep env Event.ctxDone ls = some r → r.out ≠ Outcome.returned ls') := by
  constructor
  · intro t t1 e h
    unfold Shutdown at h
    by_cases hd : t.doneFull <;> simp [hd] at h
    exact h.2.symm
  · intro env ls r ls' hstep
    unfold ReconcileStep Shutdown at hstep
    by_cases hc : ls.ctxCanceled
    · by_cases hd : ls.t.doneFull <;> simp [hc, hd] at hstep <;> simp [← hstep]
    · simp [hc] at hstep

/-- Witness for C10 at a concrete manager and a concrete canceled loop
state. -/
theorem shutdown_returns_nil_witness :
    (Shutdown tUnreg = ShutdownRes.ok { tUnreg with doneFull := true } none ∧
      (none : Option String) = none) ∧
    (ReconcileStep envAllOk Event.ctxDone lsCanceled = some stepCancel ∧
      stepCancel.out ≠ Outcome.returned lsCanceled) :=
  ⟨⟨rfl, shutdown_returns_nil.1 tUnreg { tUnreg with doneFull := true } none rfl⟩,
    ⟨rfl, shutdown_returns_nil.2 envAllOk lsCanceled stepCancel lsCanceled rfl⟩⟩

/-- C1 is violated by the code: after a refresh-timer firing whose fetch
fails, the loop is still running but `continue` skipped
`checkTimer.Reset`, so the one-shot check timer is unarmed and can never
be selected again — the failed refresh is never retried — while a
successful refresh rearms the timer as usual. -/
theorem failed_refresh_never_retried :
    ReconcileStep envFetchFail Event.checkTimer lsStart =
      some ⟨Outcome.running lsAfterFail, [RemoteCall.fetchFiles], 0⟩ ∧
    lsAfterFail.checkArmed = false ∧
    ReconcileStep envFetchFail Event.checkTimer lsAfterFail = none ∧
    ReconcileStep envAllOk Event.checkTimer lsStart =
      some ⟨Outcome.running lsStart, [RemoteCall.fetchFiles], 0⟩ := by
  refine ⟨rfl, rfl, rfl, ?_⟩
  decide

/-- C8 is violated by the code: with the context canceled, one pass
through the `ctx.Done()` case performs a successful `Shutdown` but does
not return, leaving the case selectable again; the schedule that selects
it twice makes the loop call `Shutdown` a second time, which blocks
forever on the full `done` channel. -/
theorem cancellation_double_shutdown :
    ReconcileRun envAllOk [Event.ctxDone] lsCanceled =
      some (Outcome.running { lsCanceled with t := { tUnreg with doneFull := true } }, [], 1) ∧
    ReconcileRun envAllOk [Event.ctxDone, Event.ctxDone] lsCanceled =
      some (Outcome.blocked lsBlocked, [], 2) := by
  constructor <;> decide
